import Mathlib

/-!
Verification development for the Cytomind web tier: the upload route
(`app/api/upload/route.js`), the job status route
(`app/api/jobs/[jobId]/status/route.js`), the report download route
(`app/api/reports/[jobId]/route.js`) and the client-side file validator
(`src/components/ImageUpload.jsx`), shallowly embedded over an explicit
store of Job and Patient records.
-/

namespace Cytomind

/-- Job lifecycle status, the string enum stored in the `status` field. -/
inductive Status where
  | PENDING
  | PROCESSING
  | COMPLETED
  | FAILED
deriving DecidableEq, Repr

/-- The free-form `result` object on a Job.  The status route reads the
classification fields; the upload route's catch block writes `{ error }`. -/
structure JobResult where
  classification : Option String := none
  primaryClass : Option String := none
  primaryClassFullName : Option String := none
  malignancyPercentage : Option Int := none
  confidence : Option Int := none
  topPredictions : List String := []
  error : Option String := none
deriving DecidableEq, Repr

/-- A Job document (`src/models/Job`), as created and read by the routes. -/
structure Job where
  jobId : String
  patientId : String
  labId : String
  status : Status
  progress : Nat
  totalImages : Nat
  result : Option JobResult := none
  createdAt : Nat := 0
deriving DecidableEq, Repr

/-- A Patient document (`src/models/Patient`).  `name` and `age` come from
`formData.get` and may be absent (null), hence `Option String`. -/
structure Patient where
  patientId : String
  name : Option String
  age : Option String
  labId : String
deriving DecidableEq, Repr

/-- The persistent store: the two collections the routes touch. -/
structure DB where
  jobs : List Job
  patients : List Patient
deriving DecidableEq, Repr

/-- JavaScript truthiness of a nullable string (`!x` is true for null and ""). -/
def jsTruthy : Option String → Bool
  | none => false
  | some s => s ≠ ""

/-- JavaScript `x || d` on a nullable string: the default is taken when `x`
is null/undefined or the empty string. -/
def jsOrString (o : Option String) (d : String) : String :=
  match o with
  | some s => if s = "" then d else s
  | none => d

/-- `Job.findOne({ jobId, labId })`: first job matching both keys. -/
def findJob (db : DB) (jobId userId : String) : Option Job :=
  db.jobs.find? (fun j => j.jobId == jobId && j.labId == userId)

/-- `Patient.findOne({ patientId })`: first patient with the given key. -/
def findPatient (db : DB) (pid : String) : Option Patient :=
  db.patients.find? (fun p => p.patientId == pid)

/-- Replace the first element satisfying `p` by `f` of it (Mongo
`findOneAndUpdate` semantics on a single matching document). -/
def updateFirst (p : α → Bool) (f : α → α) : List α → List α
  | [] => []
  | x :: xs => if p x then f x :: xs else x :: updateFirst p f xs

/-- `Patient.findOneAndUpdate({ patientId }, { patientId, name, age, labId },
{ upsert: true })`: overwrite the first record with this key, or append a
fresh record when none exists. -/
def upsertPatient (pid : String) (name age : Option String) (owner : String)
    (ps : List Patient) : List Patient :=
  if ps.any (fun p => p.patientId == pid) then
    updateFirst (fun p => p.patientId == pid)
      (fun _ => { patientId := pid, name := name, age := age, labId := owner }) ps
  else
    ps ++ [{ patientId := pid, name := name, age := age, labId := owner }]

/-- `Job.findOneAndUpdate({ jobId }, { status: FAILED, result: { error } })`
from the upload route's catch block. -/
def failJob (jobId msg : String) (js : List Job) : List Job :=
  updateFirst (fun j => j.jobId == jobId)
    (fun j => { j with status := .FAILED, result := some { error := some msg } }) js

/-- The multipart form fields the upload route reads. -/
structure UploadForm where
  images : List String
  image : Option String
  patientId : Option String
  name : Option String
  age : Option String
deriving DecidableEq, Repr

/-- `images.length > 0 ? images : (singleImage ? [singleImage] : [])`. -/
def allImages (form : UploadForm) : List String :=
  if form.images.length > 0 then form.images
  else
    match form.image with
    | some i => [i]
    | none => []

/-- Outcome of the `fetch` to the ML backend's analyze endpoint: acceptance,
a non-ok HTTP response whose JSON body optionally carries `detail`, or a
thrown network error. -/
inductive MLOutcome where
  | accepted
  | httpError (detail : Option String)
  | networkError (msg : String)
deriving DecidableEq, Repr

/-- The `error.message` the catch block observes, if the forward call fails:
`new Error(errorData.detail || 'ML backend error')` on non-ok, the fetch
error's own message on a network error. -/
def mlErrorMessage : MLOutcome → Option String
  | .accepted => none
  | .httpError detail => some (jsOrString detail "ML backend error")
  | .networkError msg => some msg

/-- Responses the upload route can produce, by HTTP status class. -/
inductive UploadResponse where
  | unauthorized (message : String)
  | badRequest (message : String)
  | accepted (jobId : String) (status : Status) (totalImages : Nat) (message : String)
  | serverError (message : String) (error : String)
deriving DecidableEq, Repr

/-- `POST /api/upload`: auth check, validation guard, patient upsert, job
creation, forward to the ML backend, and the catch block that marks the job
FAILED.  `auth` models `verifyToken` (error message or userId), `jobId`
models `randomUUID()`, `ml` the forward call's outcome. -/
def uploadPOST (auth : Except String String) (form : UploadForm) (jobId : String)
    (ml : MLOutcome) (db : DB) : DB × UploadResponse :=
  match auth with
  | .error e => (db, .unauthorized e)
  | .ok userId =>
    let imgs := allImages form
    if imgs.length = 0 || !(jsTruthy form.patientId) then
      (db, .badRequest "At least one image and patient ID are required")
    else
      let pid := form.patientId.getD ""
      let ps := upsertPatient pid form.name form.age userId db.patients
      let newJob : Job :=
        { jobId := jobId, patientId := pid, labId := userId,
          status := .PENDING, progress := 0, totalImages := imgs.length }
      let js := db.jobs ++ [newJob]
      match mlErrorMessage ml with
      | none =>
        ({ jobs := js, patients := ps },
         .accepted jobId .PENDING imgs.length
           (toString imgs.length ++ " image(s) uploaded, ML processing started"))
      | some m =>
        ({ jobs := failJob jobId m js, patients := ps },
         .serverError "Failed to start ML processing" m)

/-- The denormalized `report` object the status route builds for a
COMPLETED job, joining the Job's result with the Patient record. -/
structure ReportView where
  jobId : String
  patientId : String
  patientName : String
  age : String
  date : Nat
  classification : Option String
  primaryClass : Option String
  primaryClassFullName : Option String
  malignancyPercentage : Option Int
  confidence : Option Int
  topPredictions : List String
deriving DecidableEq, Repr

/-- The JSON body of a successful status response. -/
structure StatusBody where
  jobId : String
  status : Status
  progress : Nat
  report : Option ReportView := none
  message : Option String := none
deriving DecidableEq, Repr

/-- Responses of the status route. -/
inductive StatusResponse where
  | unauthorized (message : String)
  | notFound (message : String)
  | ok (body : StatusBody)
deriving DecidableEq, Repr

/-- `GET /api/jobs/[jobId]/status`: ownership-scoped lookup, then the
response body with the report join on COMPLETED and the error message on
FAILED. -/
def statusGET (auth : Except String String) (jobId : String) (db : DB) :
    StatusResponse :=
  match auth with
  | .error e => .unauthorized e
  | .ok userId =>
    match findJob db jobId userId with
    | none => .notFound "Job not found or access denied"
    | some job =>
      let base : StatusBody :=
        { jobId := job.jobId, status := job.status, progress := job.progress }
      let withReport :=
        match job.status, job.result with
        | .COMPLETED, some r =>
          let patient := findPatient db job.patientId
          { base with report := some (
            { jobId := job.jobId, patientId := job.patientId,
              patientName := jsOrString (patient.bind Patient.name) "N/A",
              age := jsOrString (patient.bind Patient.age) "N/A",
              date := job.createdAt,
              classification := r.classification,
              primaryClass := r.primaryClass,
              primaryClassFullName := r.primaryClassFullName,
              malignancyPercentage := r.malignancyPercentage,
              confidence := r.confidence,
              topPredictions := r.topPredictions } : ReportView) }
        | _, _ => base
      match job.status, job.result.bind JobResult.error with
      | .FAILED, some e => .ok { withReport with message := some e }
      | _, _ => .ok withReport

/-- Outcome of the `fetch` to the ML backend's PDF endpoint: ok with the
body bytes, a non-ok HTTP response (whose body the route never reads, so
any detail it carried is a parameter here), or a thrown network error. -/
inductive PdfOutcome where
  | ok (bytes : List Nat)
  | httpError (detail : Option String)
  | networkError (msg : String)
deriving DecidableEq, Repr

/-- Responses of the report download route. -/
inductive ReportResponse where
  | unauthorized (message : String)
  | notFound (message : String)
  | notReady (message : String)
  | pdf (bytes : List Nat) (contentType : String) (contentDisposition : String)
  | serverError (message : String)
deriving DecidableEq, Repr

/-- `GET /api/reports/[jobId]`: ownership-scoped lookup, completion gate,
then the PDF passthrough; any upstream failure lands in the catch block,
which returns the fixed 500 message. -/
def reportGET (auth : Except String String) (jobId : String) (db : DB)
    (upstream : PdfOutcome) : ReportResponse :=
  match auth with
  | .error e => .unauthorized e
  | .ok userId =>
    match findJob db jobId userId with
    | none => .notFound "Report not found or access denied"
    | some job =>
      if job.status ≠ .COMPLETED then
        .notReady "Report not ready yet"
      else
        match upstream with
        | .ok bytes =>
          .pdf bytes "application/pdf"
            ("attachment; filename=cytomind_report_" ++ jobId ++ ".pdf")
        | .httpError _ => .serverError "Failed to download report"
        | .networkError _ => .serverError "Failed to download report"

/-- A selected file as the client-side validator sees it. -/
structure JsFile where
  name : String
  type : String
  size : Nat
deriving DecidableEq, Repr

/-- The fixed MIME allow-list of `handleFileChange`. -/
def validTypes : List String :=
  ["image/jpeg", "image/jpg", "image/png", "image/tiff"]

/-- `50 * 1024 * 1024` bytes. -/
def maxSize : Nat := 50 * 1024 * 1024

/-- One iteration of the validation loop: the rejection message passed to
`setError`, or none when the file is accepted. -/
def validateFile (f : JsFile) : Option String :=
  if !(validTypes.contains f.type) then
    some (f.name ++ ": Invalid file type. Only JPG, PNG, or TIFF allowed.")
  else if f.size > maxSize then
    some (f.name ++ ": File size must be less than 50MB")
  else
    none

/-- The component state `handleFileChange` touches: the staged files and
the single error string. -/
structure UploadState where
  files : List JsFile
  error : String
deriving DecidableEq, Repr

/-- One step of the `for (const file of selectedFiles)` loop, carrying the
`validFiles` accumulator and the latest `setError` argument. -/
def fileStep (acc : List JsFile × Option String) (f : JsFile) :
    List JsFile × Option String :=
  match validateFile f with
  | some m => (acc.1, some m)
  | none => (acc.1 ++ [f], acc.2)

/-- The whole validation loop over the selected files. -/
def fileLoop (selected : List JsFile) : List JsFile × Option String :=
  selected.foldl fileStep ([], none)

/-- `handleFileChange`: early return on an empty selection, the validation
loop, then `setError('')` and the `setFiles` append when any file was
accepted. -/
def handleFileChange (st : UploadState) (selected : List JsFile) : UploadState :=
  if selected.isEmpty then st
  else
    let out := fileLoop selected
    let err :=
      match out.2 with
      | some m => m
      | none => st.error
    if out.1.length > 0 then
      { files := st.files ++ out.1, error := "" }
    else
      { files := st.files, error := err }

/-! ### Validator lemmas -/

/-- The acceptance predicate of the validator, as a single Boolean test. -/
def accepts (f : JsFile) : Bool :=
  validTypes.contains f.type && decide (f.size ≤ maxSize)

theorem validateFile_eq_none_iff (f : JsFile) :
    validateFile f = none ↔ accepts f = true := by
  unfold validateFile accepts
  by_cases hm : f.type ∈ validTypes
  · by_cases h2 : f.size ≤ maxSize
    · simp [hm, h2, Nat.not_lt.mpr h2]
    · simp [hm, h2, Nat.lt_of_not_le h2]
  · simp [hm]

theorem accepts_eq_false_of_validateFile (f : JsFile) (m : String)
    (h : validateFile f = some m) : accepts f = false := by
  cases ha : accepts f with
  | false => rfl
  | true => rw [(validateFile_eq_none_iff f).mpr ha] at h; exact Option.noConfusion h

theorem fileLoop_fst_aux (selected : List JsFile) (acc : List JsFile × Option String) :
    (selected.foldl fileStep acc).1 = acc.1 ++ selected.filter accepts := by
  induction selected generalizing acc with
  | nil => simp
  | cons f rest ih =>
    rw [List.foldl_cons, ih]
    cases h : validateFile f with
    | some m =>
      have ha := accepts_eq_false_of_validateFile f m h
      simp [fileStep, h, List.filter_cons, ha]
    | none =>
      have ha := (validateFile_eq_none_iff f).mp h
      simp [fileStep, h, List.filter_cons, ha]

/-- The rejection message of the last rejected file in a selection. -/
def lastRejection (selected : List JsFile) : Option String :=
  (selected.filterMap validateFile).getLast?

theorem getLast?_cons_eq {α : Type} (a : α) (l : List α) :
    (a :: l).getLast? =
      match l.getLast? with
      | some x => some x
      | none => some a := by
  induction l generalizing a with
  | nil => rfl
  | cons b t ih =>
    rw [List.getLast?_cons_cons, ih b]
    cases ht : t.getLast? with
    | some x => rfl
    | none => rfl

theorem fileLoop_snd_aux (selected : List JsFile) (acc : List JsFile × Option String) :
    (selected.foldl fileStep acc).2 =
      match lastRejection selected with
      | some m => some m
      | none => acc.2 := by
  induction selected generalizing acc with
  | nil => simp [lastRejection]
  | cons f rest ih =>
    rw [List.foldl_cons, ih]
    cases h : validateFile f with
    | none => simp [lastRejection, fileStep, h, List.filterMap_cons]
    | some m =>
      simp only [lastRejection, fileStep, h, List.filterMap_cons]
      rw [getLast?_cons_eq]
      cases hr : (rest.filterMap validateFile).getLast? with
      | some x => rfl
      | none => rfl

/-- C7: the Upload Validator accepts a file iff its MIME type is in the
allow-list {image/jpeg, image/jpg, image/png, image/tiff} and its size is
at most 50 MiB; every file failing either predicate never appears in the
accepted set staged for submission. -/
theorem c7_validator_allow_list (selected : List JsFile) :
    (fileLoop selected).1 = selected.filter accepts ∧
    ∀ f : JsFile, f ∈ (fileLoop selected).1 ↔
      f ∈ selected ∧ f.type ∈ validTypes ∧ f.size ≤ maxSize := by
  have h1 : (fileLoop selected).1 = selected.filter accepts := by
    rw [fileLoop, fileLoop_fst_aux]; rfl
  refine ⟨h1, fun f => ?_⟩
  rw [h1, List.mem_filter]
  unfold accepts
  simp [and_assoc]

/-- A file the validator rejects for its MIME type. -/
def badTxt : JsFile := { name := "notes.txt", type := "text/plain", size := 100 }

/-- A file the validator accepts. -/
def goodPng : JsFile := { name := "cell.png", type := "image/png", size := 1000 }

/-- C9 counterexample: a batch holding a rejected file followed by an
accepted one ends with the error cleared to the empty string, not with the
rejected file's reason — `handleFileChange` runs `setError('')` whenever at
least one file of the batch is accepted. -/
theorem c9_counterexample :
    validateFile badTxt =
      some "notes.txt: Invalid file type. Only JPG, PNG, or TIFF allowed." ∧
    validateFile goodPng = none ∧
    (handleFileChange { files := [], error := "" } [badTxt, goodPng]).error = "" ∧
    ("" : String) ≠ "notes.txt: Invalid file type. Only JPG, PNG, or TIFF allowed." := by
  refine ⟨by decide, by decide, by decide, by decide⟩

/-- C9 amended: each rejection overwrites the single held reason, so when a
batch contains a rejected file and no file is accepted the surfaced reason
is the last rejected file's; when any file of the batch is accepted, the
handler clears the error to the empty string instead. -/
theorem c9_last_rejection_reason (st : UploadState) (selected : List JsFile)
    (h : ∃ f, f ∈ selected ∧ accepts f = false) :
    (handleFileChange st selected).error =
      if selected.filter accepts = [] then (lastRejection selected).getD "" else "" := by
  obtain ⟨f0, hf0, hrej⟩ := h
  have hne : selected ≠ [] := by
    intro hc; rw [hc] at hf0; exact absurd hf0 (List.not_mem_nil f0)
  have hsome : ∃ m, lastRejection selected = some m := by
    have hv : ∃ m0, validateFile f0 = some m0 := by
      cases hv : validateFile f0 with
      | some m0 => exact ⟨m0, rfl⟩
      | none =>
        exact absurd ((validateFile_eq_none_iff f0).mp hv)
          (by rw [hrej]; exact Bool.false_ne_true)
    obtain ⟨m0, hm0⟩ := hv
    have hfm : selected.filterMap validateFile ≠ [] := by
      intro hc
      have hmem : m0 ∈ selected.filterMap validateFile :=
        List.mem_filterMap.mpr ⟨f0, hf0, hm0⟩
      rw [hc] at hmem
      exact absurd hmem (List.not_mem_nil _)
    unfold lastRejection
    cases hg : (selected.filterMap validateFile).getLast? with
    | some m => exact ⟨m, rfl⟩
    | none => exact absurd (List.getLast?_eq_none_iff.mp hg) hfm
  obtain ⟨m, hm⟩ := hsome
  have hfst : (fileLoop selected).1 = selected.filter accepts := by
    rw [fileLoop, fileLoop_fst_aux]; rfl
  have hsnd : (fileLoop selected).2 = some m := by
    rw [fileLoop, fileLoop_snd_aux, hm]
  unfold handleFileChange
  rw [if_neg (by simp [List.isEmpty_iff, hne])]
  by_cases hacc : selected.filter accepts = []
  · rw [if_pos hacc, hm]
    have : (fileLoop selected).1.length = 0 := by rw [hfst, hacc]; rfl
    simp only [this, hsnd]
    rfl
  · rw [if_neg hacc]
    have : (fileLoop selected).1.length > 0 := by
      rw [hfst]
      exact List.length_pos.mpr hacc
    simp only [hsnd]
    rw [if_pos this]

/-- Witness for the C9 theorem at a concrete all-rejected batch. -/
theorem c9_last_rejection_reason_witness :
    (handleFileChange { files := [], error := "" } [badTxt]).error =
      if ([badTxt] : List JsFile).filter accepts = []
      then (lastRejection [badTxt]).getD "" else "" :=
  c9_last_rejection_reason { files := [], error := "" } [badTxt]
    ⟨badTxt, by decide, by decide⟩

/-! ### Upload route lemmas -/

/-- The records of the patient collection keyed by a given `patientId`. -/
def patientsFor (pid : String) (ps : List Patient) : List Patient :=
  ps.filter (fun p => p.patientId == pid)

/-- The message field of an upload response body. -/
def UploadResponse.messageField : UploadResponse → String
  | .unauthorized m => m
  | .badRequest m => m
  | .accepted _ _ _ m => m
  | .serverError m _ => m

/-- The `error` field of an upload response body, present only on the 500
path. -/
def UploadResponse.errorField : UploadResponse → Option String
  | .serverError _ e => some e
  | _ => none

theorem uploadPOST_guard_passes (userId pid : String) (form : UploadForm)
    (jobId : String) (ml : MLOutcome) (db : DB)
    (himg : allImages form ≠ []) (hpid : form.patientId = some pid) (hpne : pid ≠ "") :
    uploadPOST (.ok userId) form jobId ml db =
      (let ps := upsertPatient pid form.name form.age userId db.patients
       let newJob : Job :=
         { jobId := jobId, patientId := pid, labId := userId,
           status := .PENDING, progress := 0, totalImages := (allImages form).length }
       let js := db.jobs ++ [newJob]
       match mlErrorMessage ml with
       | none =>
         ({ jobs := js, patients := ps },
          .accepted jobId .PENDING (allImages form).length
            (toString (allImages form).length ++ " image(s) uploaded, ML processing started"))
       | some m =>
         ({ jobs := failJob jobId m js, patients := ps },
          .serverError "Failed to start ML processing" m)) := by
  have hc : (decide ((allImages form).length = 0) || !jsTruthy (some pid)) = false := by
    simp [jsTruthy, hpne, List.length_eq_zero, himg]
  unfold uploadPOST
  simp only [hpid, Option.getD_some]
  rw [hc]
  rfl

/-- C2: an upload with zero images or an absent patientId is rejected with
the 400 validation message and leaves the store untouched — no Job and no
Patient record is created or updated. -/
theorem c2_invalid_upload_rejected (userId : String) (form : UploadForm)
    (jobId : String) (ml : MLOutcome) (db : DB)
    (h : allImages form = [] ∨ form.patientId = none) :
    uploadPOST (.ok userId) form jobId ml db =
      (db, .badRequest "At least one image and patient ID are required") := by
  unfold uploadPOST
  rcases h with h | h
  · simp [h]
  · simp [h, jsTruthy]

/-- Witness for C2 at a concrete zero-image form. -/
theorem c2_invalid_upload_rejected_witness :
    uploadPOST (.ok "lab1")
        { images := [], image := none, patientId := some "P1",
          name := some "Jane", age := some "34" } "J1" .accepted
        { jobs := [], patients := [] } =
      ({ jobs := [], patients := [] },
       .badRequest "At least one image and patient ID are required") :=
  c2_invalid_upload_rejected "lab1" _ "J1" .accepted _ (Or.inl (by decide))

theorem upsertPatient_patientsFor (pid : String) (name age : Option String)
    (owner : String) (ps : List Patient)
    (h : (patientsFor pid ps).length ≤ 1) :
    patientsFor pid (upsertPatient pid name age owner ps) =
      [{ patientId := pid, name := name, age := age, labId := owner }] := by
  induction ps with
  | nil => simp [upsertPatient, patientsFor, updateFirst]
  | cons p rest ih =>
    by_cases hp : p.patientId == pid
    · have hany : (p :: rest).any (fun q => q.patientId == pid) = true := by
        simp [List.any_cons, hp]
      have hrest : patientsFor pid rest = [] := by
        have hlen : (patientsFor pid (p :: rest)).length ≤ 1 := h
        rw [patientsFor, List.filter_cons, if_pos hp] at hlen
        have := Nat.le_of_succ_le_succ hlen
        exact List.length_eq_zero.mp (Nat.le_zero.mp this)
      rw [upsertPatient, if_pos hany, updateFirst, if_pos hp]
      rw [patientsFor, List.filter_cons]
      simp only [beq_self_eq_true, if_true, reduceIte]
      have : patientsFor pid rest = List.filter (fun q => q.patientId == pid) rest := rfl
      rw [← this, hrest]
    · have hple : (patientsFor pid rest).length ≤ 1 := by
        have hlen : (patientsFor pid (p :: rest)).length ≤ 1 := h
        rw [patientsFor, List.filter_cons, if_neg (by simp [hp])] at hlen
        exact hlen
      have ihr := ih hple
      by_cases hany : rest.any (fun q => q.patientId == pid) = true
      · have hanyc : (p :: rest).any (fun q => q.patientId == pid) = true := by
          simp [List.any_cons, hany]
        rw [upsertPatient, if_pos hanyc, updateFirst,
          if_neg (by simp [hp])]
        rw [upsertPatient, if_pos hany] at ihr
        rw [patientsFor, List.filter_cons, if_neg (by simp [hp])]
        exact ihr
      · have hanyc : (p :: rest).any (fun q => q.patientId == pid) = false := by
          simp only [List.any_cons, Bool.or_eq_false_iff]
          exact ⟨Bool.eq_false_iff.mpr hp, Bool.eq_false_iff.mpr hany⟩
        rw [upsertPatient, hanyc]
        simp only [Bool.false_eq_true, if_false]
        rw [upsertPatient, if_neg hany] at ihr
        rw [List.cons_append, patientsFor, List.filter_cons,
          if_neg (by simp [hp])]
        exact ihr

/-- C5: a valid upload appends exactly one PENDING Job with `progress = 0`
and `totalImages` equal to the submitted image count, upserts exactly one
Patient keyed by `patientId`, and answers with the job id, PENDING status
and the image count. -/
theorem c5_successful_upload (userId pid : String) (form : UploadForm)
    (jobId : String) (db : DB)
    (himg : allImages form ≠ []) (hpid : form.patientId = some pid) (hpne : pid ≠ "")
    (hcount : (patientsFor pid db.patients).length ≤ 1) :
    uploadPOST (.ok userId) form jobId .accepted db =
      ({ jobs := db.jobs ++
            [{ jobId := jobId, patientId := pid, labId := userId, status := .PENDING,
               progress := 0, totalImages := (allImages form).length }],
         patients := upsertPatient pid form.name form.age userId db.patients },
       .accepted jobId .PENDING (allImages form).length
         (toString (allImages form).length ++ " image(s) uploaded, ML processing started")) ∧
    patientsFor pid (uploadPOST (.ok userId) form jobId .accepted db).1.patients =
      [{ patientId := pid, name := form.name, age := form.age, labId := userId }] := by
  have heq := uploadPOST_guard_passes userId pid form jobId .accepted db himg hpid hpne
  simp only [mlErrorMessage] at heq
  refine ⟨heq, ?_⟩
  rw [heq]
  exact upsertPatient_patientsFor pid form.name form.age userId db.patients hcount

/-- Witness for C5 at a concrete single-image upload. -/
theorem c5_successful_upload_witness :
    uploadPOST (.ok "lab1")
        { images := ["img1"], image := none, patientId := some "P1",
          name := some "Jane", age := some "34" } "J1" .accepted
        { jobs := [], patients := [] } =
      ({ jobs := [{ jobId := "J1", patientId := "P1", labId := "lab1",
                    status := .PENDING, progress := 0, totalImages := 1 }],
         patients := [{ patientId := "P1", name := some "Jane",
                        age := some "34", labId := "lab1" }] },
       .accepted "J1" .PENDING 1 "1 image(s) uploaded, ML processing started") :=
  (c5_successful_upload "lab1" "P1" _ "J1" _ (by decide) rfl (by decide) (by decide)).1

theorem updateFirst_append_last {α : Type} {p : α → Bool} {f : α → α}
    {l : List α} {x : α} (hl : ∀ y ∈ l, p y = false) (hx : p x = true) :
    updateFirst p f (l ++ [x]) = l ++ [f x] := by
  induction l with
  | nil => simp [updateFirst, hx]
  | cons a t ih =>
    have ha : p a = false := hl a (List.mem_cons_self a t)
    rw [List.cons_append, updateFirst, if_neg (by simp [ha]), List.cons_append,
      ih (fun y hy => hl y (List.mem_cons_of_mem a hy))]

/-- The upload form used by the concrete counterexamples. -/
def c1form : UploadForm :=
  { images := ["img1"], image := none, patientId := some "P1",
    name := some "Jane", age := some "34" }

/-- C1 counterexample: a valid upload whose forward call dies with a network
error message "boom" stores `result.error = "boom"` on the FAILED job, but
the 500 response's `message` field is the fixed string
"Failed to start ML processing", which differs from the stored
`result.error` (the latter travels in the separate `error` field). -/
theorem c1_counterexample :
    (uploadPOST (.ok "lab1") c1form "J1" (.networkError "boom")
        { jobs := [], patients := [] }).1.jobs =
      [{ jobId := "J1", patientId := "P1", labId := "lab1", status := .FAILED,
         progress := 0, totalImages := 1, result := some { error := some "boom" } }] ∧
    (uploadPOST (.ok "lab1") c1form "J1" (.networkError "boom")
        { jobs := [], patients := [] }).2.messageField = "Failed to start ML processing" ∧
    ("Failed to start ML processing" : String) ≠ "boom" := by
  refine ⟨by decide, by decide, by decide⟩

/-- C1 amended: when the forward call fails, the freshly created Job is
transitioned to FAILED with the failure message recorded in `result.error`,
and the caller receives a 500 response whose `error` field equals the
stored `result.error`, while its `message` field is the fixed string
"Failed to start ML processing". -/
theorem c1_forward_failure (userId pid m : String) (form : UploadForm)
    (jobId : String) (ml : MLOutcome) (db : DB)
    (himg : allImages form ≠ []) (hpid : form.patientId = some pid) (hpne : pid ≠ "")
    (hml : mlErrorMessage ml = some m)
    (hfresh : ∀ j ∈ db.jobs, j.jobId ≠ jobId) :
    uploadPOST (.ok userId) form jobId ml db =
      ({ jobs := db.jobs ++
            [{ jobId := jobId, patientId := pid, labId := userId, status := .FAILED,
               progress := 0, totalImages := (allImages form).length,
               result := some { error := some m } }],
         patients := upsertPatient pid form.name form.age userId db.patients },
       .serverError "Failed to start ML processing" m) ∧
    (uploadPOST (.ok userId) form jobId ml db).2.errorField = some m ∧
    (uploadPOST (.ok userId) form jobId ml db).2.messageField =
      "Failed to start ML processing" := by
  have heq := uploadPOST_guard_passes userId pid form jobId ml db himg hpid hpne
  rw [hml] at heq
  have hfj : failJob jobId m (db.jobs ++
      [{ jobId := jobId, patientId := pid, labId := userId, status := .PENDING,
         progress := 0, totalImages := (allImages form).length }]) =
      db.jobs ++
      [{ jobId := jobId, patientId := pid, labId := userId, status := .FAILED,
         progress := 0, totalImages := (allImages form).length,
         result := some { error := some m } }] := by
    unfold failJob
    rw [updateFirst_append_last
      (fun y hy => Bool.eq_false_iff.mpr (by simp [hfresh y hy]))
      (by simp)]
  refine ⟨?_, ?_, ?_⟩
  · rw [heq]
    simp only [hfj]
  · rw [heq]
    rfl
  · rw [heq]
    rfl

/-- Witness for the amended C1 theorem at a concrete failing upload. -/
theorem c1_forward_failure_witness :
    uploadPOST (.ok "lab1") c1form "J1" (.networkError "boom")
        { jobs := [], patients := [] } =
      ({ jobs := [{ jobId := "J1", patientId := "P1", labId := "lab1",
                    status := .FAILED, progress := 0, totalImages := 1,
                    result := some { error := some "boom" } }],
         patients := [{ patientId := "P1", name := some "Jane",
                        age := some "34", labId := "lab1" }] },
       .serverError "Failed to start ML processing" "boom") :=
  (c1_forward_failure "lab1" "P1" "boom" c1form "J1" (.networkError "boom")
    { jobs := [], patients := [] } (by decide) rfl (by decide) rfl
    (by intro j hj; exact absurd hj (List.not_mem_nil j))).1

/-! ### Patient upsert across repeated uploads -/

/-- One caller-side upload request: the authenticated user, the form, the
generated job id and the forward call's outcome. -/
structure UploadCall where
  userId : String
  form : UploadForm
  jobId : String
  ml : MLOutcome
deriving DecidableEq, Repr

/-- The store after a sequence of upload requests, each handled by the
upload route. -/
def runUploads (db : DB) (calls : List UploadCall) : DB :=
  calls.foldl (fun d c => (uploadPOST (.ok c.userId) c.form c.jobId c.ml d).1) db

theorem uploadPOST_patients (userId pid : String) (form : UploadForm)
    (jobId : String) (ml : MLOutcome) (db : DB)
    (himg : allImages form ≠ []) (hpid : form.patientId = some pid) (hpne : pid ≠ "") :
    (uploadPOST (.ok userId) form jobId ml db).1.patients =
      upsertPatient pid form.name form.age userId db.patients := by
  rw [uploadPOST_guard_passes userId pid form jobId ml db himg hpid hpne]
  cases h : mlErrorMessage ml with
  | none => rfl
  | some m => rfl

/-- C8: across any sequence of valid uploads naming the same `patientId`,
the patient collection holds exactly one record for that id and its name,
age and owner equal those of the last upload — last write wins, no
duplicate, no prior values retained. -/
theorem c8_patient_last_write_wins (pid : String) (db : DB)
    (calls : List UploadCall) (lc : UploadCall)
    (hinit : (patientsFor pid db.patients).length ≤ 1)
    (hvalid : ∀ c ∈ calls, c.form.patientId = some pid ∧ allImages c.form ≠ [])
    (hpne : pid ≠ "")
    (hlast : calls.getLast? = some lc) :
    patientsFor pid (runUploads db calls).patients =
      [{ patientId := pid, name := lc.form.name, age := lc.form.age,
         labId := lc.userId }] := by
  induction calls generalizing db with
  | nil => exact absurd hlast (by simp)
  | cons c rest ih =>
    obtain ⟨hcp, hci⟩ := hvalid c (List.mem_cons_self c rest)
    have hstep : (uploadPOST (.ok c.userId) c.form c.jobId c.ml db).1.patients =
        upsertPatient pid c.form.name c.form.age c.userId db.patients :=
      uploadPOST_patients c.userId pid c.form c.jobId c.ml db hci hcp hpne
    have hone : patientsFor pid
        (uploadPOST (.ok c.userId) c.form c.jobId c.ml db).1.patients =
        [{ patientId := pid, name := c.form.name, age := c.form.age,
           labId := c.userId }] := by
      rw [hstep]
      exact upsertPatient_patientsFor pid c.form.name c.form.age c.userId
        db.patients hinit
    cases rest with
    | nil =>
      have : lc = c := by
        have := hlast
        simp only [List.getLast?_singleton, Option.some_inj] at this
        exact this.symm
      subst this
      exact hone
    | cons r t =>
      have hlast2 : (r :: t).getLast? = some lc := by
        rw [← hlast, List.getLast?_cons_cons]
      have hvalid2 : ∀ x ∈ r :: t, x.form.patientId = some pid ∧
          allImages x.form ≠ [] :=
        fun x hx => hvalid x (List.mem_cons_of_mem c hx)
      have hinit2 : (patientsFor pid
          (uploadPOST (.ok c.userId) c.form c.jobId c.ml db).1.patients).length ≤ 1 := by
        rw [hone]; exact Nat.le_refl 1
      exact ih _ hinit2 hvalid2 hlast2

/-- First concrete upload call of the C8 witness. -/
def c8callA : UploadCall :=
  { userId := "lab1", form := c1form, jobId := "J1", ml := .accepted }

/-- Second concrete upload call of the C8 witness, same patient, new
name/age/owner. -/
def c8callB : UploadCall :=
  { userId := "lab2",
    form := { images := ["img2"], image := none, patientId := some "P1",
              name := some "Janet", age := some "35" },
    jobId := "J2", ml := .accepted }

/-- Witness for C8 at two concrete uploads for the same patient. -/
theorem c8_patient_last_write_wins_witness :
    patientsFor "P1" (runUploads { jobs := [], patients := [] }
        [c8callA, c8callB]).patients =
      [{ patientId := "P1", name := some "Janet", age := some "35",
         labId := "lab2" }] :=
  c8_patient_last_write_wins "P1" { jobs := [], patients := [] }
    [c8callA, c8callB] c8callB
    (by decide) (by decide) (by decide) (by decide)

/-! ### Status and report route theorems -/

theorem findJob_eq_none (db : DB) (jobId userId : String)
    (h : ∀ j ∈ db.jobs, ¬(j.jobId = jobId ∧ j.labId = userId)) :
    findJob db jobId userId = none := by
  unfold findJob
  rw [List.find?_eq_none]
  intro j hj
  have := h j hj
  simp only [Bool.and_eq_true, beq_iff_eq, not_and] at *
  intro hji
  exact fun hl => (this hji) hl

/-- C3: a status query for a jobId with no Job owned by the caller answers
NotFound with a fixed body, and that answer is identical whether the job
does not exist at all or exists under a different owner — a non-owner
learns nothing about the job. -/
theorem c3_status_not_found (userId jobId : String) (db : DB)
    (h : ∀ j ∈ db.jobs, ¬(j.jobId = jobId ∧ j.labId = userId)) :
    statusGET (.ok userId) jobId db = .notFound "Job not found or access denied" ∧
    ∀ db2 : DB, (∀ j ∈ db2.jobs, ¬(j.jobId = jobId ∧ j.labId = userId)) →
      statusGET (.ok userId) jobId db = statusGET (.ok userId) jobId db2 := by
  have hbody : ∀ d : DB, (∀ j ∈ d.jobs, ¬(j.jobId = jobId ∧ j.labId = userId)) →
      statusGET (.ok userId) jobId d = .notFound "Job not found or access denied" := by
    intro d hd
    unfold statusGET
    simp only [findJob_eq_none d jobId userId hd]
  refine ⟨hbody db h, fun db2 h2 => ?_⟩
  rw [hbody db h, hbody db2 h2]

/-- A job owned by another account, for the C3 witness. -/
def otherJob : Job :=
  { jobId := "J1", patientId := "P1", labId := "other", status := .COMPLETED,
    progress := 100, totalImages := 1,
    result := some { classification := some "MALIGNANT" } }

/-- Witness for C3: the caller "me" queries the job owned by "other". -/
theorem c3_status_not_found_witness :
    statusGET (.ok "me") "J1" { jobs := [otherJob], patients := [] } =
      .notFound "Job not found or access denied" :=
  (c3_status_not_found "me" "J1" { jobs := [otherJob], patients := [] }
    (by decide)).1

/-- C4: for an owned job, the report route answers NotReady (400) whenever
the job is not COMPLETED; when it is COMPLETED and the upstream PDF fetch
succeeds, the response carries exactly the upstream bytes with
`Content-Disposition: attachment; filename=cytomind_report_{jobId}.pdf`. -/
theorem c4_report_gate_and_bytes (userId jobId : String) (db : DB) (job : Job)
    (bytes : List Nat) (up : PdfOutcome)
    (hfind : findJob db jobId userId = some job) :
    (job.status ≠ .COMPLETED →
      reportGET (.ok userId) jobId db up = .notReady "Report not ready yet") ∧
    (job.status = .COMPLETED →
      reportGET (.ok userId) jobId db (.ok bytes) =
        .pdf bytes "application/pdf"
          ("attachment; filename=cytomind_report_" ++ jobId ++ ".pdf")) := by
  constructor
  · intro hst
    unfold reportGET
    simp only [hfind]
    rw [if_pos hst]
  · intro hst
    unfold reportGET
    simp only [hfind]
    rw [if_neg (by simp [hst])]

/-- The store used by the report route witnesses: one COMPLETED job owned
by "lab1". -/
def dbCompleted : DB :=
  { jobs := [{ jobId := "J1", patientId := "P1", labId := "lab1",
               status := .COMPLETED, progress := 100, totalImages := 1,
               result := some { classification := some "MALIGNANT" } }],
    patients := [] }

/-- Witness for C4 at a concrete COMPLETED job and upstream bytes. -/
theorem c4_report_gate_and_bytes_witness :
    reportGET (.ok "lab1") "J1" dbCompleted (.ok [37, 80, 68, 70]) =
      .pdf [37, 80, 68, 70] "application/pdf"
        ("attachment; filename=cytomind_report_" ++ "J1" ++ ".pdf") :=
  (c4_report_gate_and_bytes "lab1" "J1" dbCompleted
    { jobId := "J1", patientId := "P1", labId := "lab1", status := .COMPLETED,
      progress := 100, totalImages := 1,
      result := some { classification := some "MALIGNANT" } }
    [37, 80, 68, 70] (.ok [37, 80, 68, 70]) (by decide)).2 rfl

/-- C6 counterexample: the Report Retriever answers the fixed message
"Failed to download report" even when the upstream error carried its own
detail — the route never reads the failing response's body, so the
upstream message is not forwarded. -/
theorem c6_counterexample :
    reportGET (.ok "lab1") "J1" dbCompleted
        (.httpError (some "Custom upstream detail")) =
      .serverError "Failed to download report" ∧
    ("Failed to download report" : String) ≠ "Custom upstream detail" := by
  refine ⟨by decide, by decide⟩

/-- C6 amended: on an upstream failure the upload path forwards the
upstream's `detail` (falling back to "ML backend error" when absent) in the
500 response's `error` field, while the Report Retriever always answers the
fixed message "Failed to download report" regardless of any upstream
detail. -/
theorem c6_upstream_error_messages (userId pid d jobId : String)
    (form : UploadForm) (db : DB) (job : Job) (detail : Option String)
    (himg : allImages form ≠ []) (hpid : form.patientId = some pid)
    (hpne : pid ≠ "") (hd : d ≠ "")
    (hfind : findJob db jobId userId = some job)
    (hst : job.status = .COMPLETED) :
    (uploadPOST (.ok userId) form jobId (.httpError (some d)) db).2 =
      .serverError "Failed to start ML processing" d ∧
    (uploadPOST (.ok userId) form jobId (.httpError none) db).2 =
      .serverError "Failed to start ML processing" "ML backend error" ∧
    reportGET (.ok userId) jobId db (.httpError detail) =
      .serverError "Failed to download report" := by
  refine ⟨?_, ?_, ?_⟩
  · rw [uploadPOST_guard_passes userId pid form jobId (.httpError (some d)) db
      himg hpid hpne]
    simp only [mlErrorMessage, jsOrString]
    rw [if_neg hd]
  · rw [uploadPOST_guard_passes userId pid form jobId (.httpError none) db
      himg hpid hpne]
    rfl
  · unfold reportGET
    simp only [hfind]
    rw [if_neg (by simp [hst])]

/-- Witness for the amended C6 theorem at concrete upstream failures. -/
theorem c6_upstream_error_messages_witness :
    (uploadPOST (.ok "lab1") c1form "J9" (.httpError (some "GPU out of memory"))
        dbCompleted).2 =
      .serverError "Failed to start ML processing" "GPU out of memory" :=
  (c6_upstream_error_messages "lab1" "P1" "GPU out of memory" "J1" c1form
    dbCompleted
    { jobId := "J1", patientId := "P1", labId := "lab1", status := .COMPLETED,
      progress := 100, totalImages := 1,
      result := some { classification := some "MALIGNANT" } }
    none (by decide) rfl (by decide) (by decide) (by decide) rfl).1

/-- C10: a status query on an owned COMPLETED job with a result still
succeeds when the referenced Patient record is absent, returning the
denormalized report with `patientName` and `age` falling back to "N/A". -/
theorem c10_missing_patient_fallback (userId jobId : String) (db : DB)
    (job : Job) (r : JobResult)
    (hfind : findJob db jobId userId = some job)
    (hst : job.status = .COMPLETED) (hres : job.result = some r)
    (hpat : findPatient db job.patientId = none) :
    statusGET (.ok userId) jobId db = .ok
      { jobId := job.jobId, status := .COMPLETED, progress := job.progress,
        report := some
          { jobId := job.jobId, patientId := job.patientId, patientName := "N/A",
            age := "N/A", date := job.createdAt,
            classification := r.classification, primaryClass := r.primaryClass,
            primaryClassFullName := r.primaryClassFullName,
            malignancyPercentage := r.malignancyPercentage,
            confidence := r.confidence, topPredictions := r.topPredictions },
        message := none } := by
  unfold statusGET
  simp only [hfind, hst, hres, hpat, Option.none_bind, Option.some_bind,
    jsOrString]

/-- Witness for C10: the COMPLETED job's patient is absent from the store. -/
theorem c10_missing_patient_fallback_witness :
    statusGET (.ok "lab1") "J1" dbCompleted = .ok
      { jobId := "J1", status := .COMPLETED, progress := 100,
        report := some
          { jobId := "J1", patientId := "P1", patientName := "N/A",
            age := "N/A", date := 0,
            classification := some "MALIGNANT", primaryClass := none,
            primaryClassFullName := none, malignancyPercentage := none,
            confidence := none, topPredictions := [] },
        message := none } :=
  c10_missing_patient_fallback "lab1" "J1" dbCompleted
    { jobId := "J1", patientId := "P1", labId := "lab1", status := .COMPLETED,
      progress := 100, totalImages := 1,
      result := some { classification := some "MALIGNANT" } }
    { classification := some "MALIGNANT" }
    (by decide) rfl rfl (by decide)

end Cytomind
